import Mathlib

/-!
Verification of the G2452 ULP RTC firmware (MSP430G2452, DS3231-style register
layout).  The definitions below are a shallow embedding of the C source:
the 31-byte global array of bytes becomes a function from offsets to natural
numbers (each entry is a byte value, kept below 256 by explicit mod-256
arithmetic exactly where the C unsigned-char arithmetic wraps), and each C
function becomes a Lean function on an explicit state record.
-/

namespace G2452RTC

/-- The 31-byte data store, modelled as a map from register offset to the byte
stored there.  Only offsets 0 through 30 are meaningful; out-of-range accesses
made by the bus callback are modelled separately with an explicit bounds
check returning an error. -/
abbrev RegFile := Nat → Nat

/-- Pointwise update of the data store at one offset. -/
def upd (ds : RegFile) (i v : Nat) : RegFile := fun j => if j = i then v else ds j

/-- Increment of an unsigned char, wrapping at 256 (the `x++` of the C source
on a byte). -/
def inc8 (b : Nat) : Nat := (b + 1) % 256

/-- `_time_carry`: if the low nibble of the byte is 10 (detected in the C by
shifting left four bits into an unsigned char and comparing with 0xA0), clear
it and increment the high nibble; the write back of the shifted high nibble
wraps at 256 just as the unsigned-char store does. -/
def time_carry (b : Nat) : Nat :=
  if b * 16 % 256 = 0xA0 then (b / 16 + 1) * 16 % 256 else b

/-- `_check_leap_year`, as a function of the year byte (offset 6).  The C reads
only `_DATA_STORE[6]`: it tests bit 4 of the year byte and compares the
left-shifted byte (the units digit moved to the high nibble) with fixed
constants. -/
def check_leap_year (year : Nat) : Nat :=
  let l := year * 16 % 256
  if year &&& 0x10 ≠ 0 then
    if l = 0x20 ∨ l = 0x60 then 1 else 0
  else
    if l = 0x40 ∨ l = 0x80 then 1 else 0

/-- The leap-year check as the firmware invokes it: on the data store, reading
offset 6. -/
def check_leap_year_st (ds : RegFile) : Nat := check_leap_year (ds 6)

/-- The global mutable state touched by `_time_increment`: the data store,
`_RTC_action_bits` and `_is_leap_year`. -/
structure RTCState where
  ds : RegFile
  actionBits : Nat
  isLeap : Nat

/-- Seconds block of `_time_increment` (lines 180-187): increment offset 0;
on 0x5A reset it, bump the minutes and request an alarm check (BIT3),
otherwise apply the nibble carry to offset 0. -/
def stage_sec (s : RTCState) : RTCState :=
  let ds := upd s.ds 0 (inc8 (s.ds 0))
  if ds 0 = 0x5A then
    ⟨upd (upd ds 0 0x00) 1 (inc8 (ds 1)), s.actionBits ||| 8, s.isLeap⟩
  else
    ⟨upd ds 0 (time_carry (ds 0)), s.actionBits, s.isLeap⟩

/-- Minutes block (lines 189-194). -/
def stage_min (s : RTCState) : RTCState :=
  if s.ds 1 = 0x5A then
    ⟨upd (upd s.ds 1 0x00) 2 (inc8 (s.ds 2)), s.actionBits, s.isLeap⟩
  else
    ⟨upd s.ds 1 (time_carry (s.ds 1)), s.actionBits, s.isLeap⟩

/-- Hours block (lines 196-202): on 0x24 reset the hour and bump both the
day-of-week (offset 3) and the date (offset 4). -/
def stage_hour (s : RTCState) : RTCState :=
  if s.ds 2 = 0x24 then
    ⟨upd (upd (upd s.ds 2 0x00) 3 (inc8 (s.ds 3))) 4 (inc8 (s.ds 4)),
      s.actionBits, s.isLeap⟩
  else
    ⟨upd s.ds 2 (time_carry (s.ds 2)), s.actionBits, s.isLeap⟩

/-- Day-of-week block (lines 204-205): 8 wraps to 1. -/
def stage_day (s : RTCState) : RTCState :=
  if s.ds 3 = 0x08 then ⟨upd s.ds 3 0x01, s.actionBits, s.isLeap⟩ else s

/-- The `switch` on the date byte (lines 207-243), as a function of the date
byte, the month byte and the cached leap flag; returns the new (date, month)
pair.  The default branch applies the nibble carry to the date. -/
def date_check (d4 d5 leap : Nat) : Nat × Nat :=
  if d4 = 0x29 then
    (if d5 = 0x02 ∧ leap = 0 then (0x01, inc8 d5) else (d4, d5))
  else if d4 = 0x30 then
    (if d5 = 0x02 then (0x01, inc8 d5) else (d4, d5))
  else if d4 = 0x31 then
    (if d5 = 0x04 ∨ d5 = 0x06 ∨ d5 = 0x09 ∨ d5 = 0x11 then (0x01, inc8 d5)
     else (d4, d5))
  else if d4 = 0x32 then
    (if d5 = 0x01 ∨ d5 = 0x03 ∨ d5 = 0x05 ∨ d5 = 0x07 ∨ d5 = 0x08 ∨
        d5 = 0x10 ∨ d5 = 0x12 then (0x01, inc8 d5)
     else (d4, d5))
  else (time_carry d4, d5)

/-- Date block: write the result of the date switch back into offsets 4, 5. -/
def stage_date (s : RTCState) : RTCState :=
  let p := date_check (s.ds 4) (s.ds 5) s.isLeap
  ⟨upd (upd s.ds 4 p.1) 5 p.2, s.actionBits, s.isLeap⟩

/-- Month block (lines 245-251): 0x13 wraps to 1, bumps the year and requests
a leap-year recomputation (BIT2). -/
def stage_month (s : RTCState) : RTCState :=
  if s.ds 5 = 0x13 then
    ⟨upd (upd s.ds 5 0x01) 6 (inc8 (s.ds 6)), s.actionBits ||| 4, s.isLeap⟩
  else
    ⟨upd s.ds 5 (time_carry (s.ds 5)), s.actionBits, s.isLeap⟩

/-- Year block (lines 253-258): 0x9A wraps to 0 and bumps the century. -/
def stage_year (s : RTCState) : RTCState :=
  if s.ds 6 = 0x9A then
    ⟨upd (upd s.ds 6 0x00) 7 (inc8 (s.ds 7)), s.actionBits, s.isLeap⟩
  else
    ⟨upd s.ds 6 (time_carry (s.ds 6)), s.actionBits, s.isLeap⟩

/-- Leap-year recomputation block (lines 260-264): if BIT2 is pending,
recompute `_is_leap_year` from the (possibly just incremented) year byte and
clear BIT2 (an unsigned-char `&= ~BIT2`, that is `&&& 0xFB`). -/
def stage_leap (s : RTCState) : RTCState :=
  if s.actionBits &&& 4 ≠ 0 then
    ⟨s.ds, s.actionBits &&& 0xFB, check_leap_year_st s.ds⟩
  else s

/-- Century block (lines 266-270): 0x9A wraps to 0, with no further carry. -/
def stage_century (s : RTCState) : RTCState :=
  if s.ds 7 = 0x9A then
    ⟨upd s.ds 7 0x00, s.actionBits, s.isLeap⟩
  else
    ⟨upd s.ds 7 (time_carry (s.ds 7)), s.actionBits, s.isLeap⟩

/-- `_time_increment`: the blocks above run in the order of the source. -/
def time_increment (s : RTCState) : RTCState :=
  stage_century (stage_leap (stage_year (stage_month (stage_date
    (stage_day (stage_hour (stage_min (stage_sec s))))))))

/-- A byte holding two valid BCD digits: both nibbles at most 9. -/
def isBCD (b : Nat) : Prop := b % 16 ≤ 9 ∧ b / 16 ≤ 9

instance (b : Nat) : Decidable (isBCD b) := by unfold isBCD; infer_instance

/-- In-BCD successor of a byte (spec language: increment by one with correct
BCD carry, no rollover). -/
def bcdSucc (b : Nat) : Nat := if b % 16 = 9 then (b / 16 + 1) * 16 else b + 1

/-- Number of days in a month, in BCD, per the firmware calendar: month byte
0x02 has 0x28 days (0x29 in a leap year per the cached flag), the four 30-day
months have 0x30, everything else 0x31. -/
def monthDays (m leap : Nat) : Nat :=
  if m = 0x02 then (if leap ≠ 0 then 0x29 else 0x28)
  else if m = 0x04 ∨ m = 0x06 ∨ m = 0x09 ∨ m = 0x11 then 0x30
  else 0x31

/-- A register file describing a valid calendar instant, together with a
cached leap flag consistent with the year byte: every time/date byte holds
two BCD digits in its field range, and the date fits the current month. -/
def ValidTime (s : RTCState) : Prop :=
  isBCD (s.ds 0) ∧ s.ds 0 ≤ 0x59 ∧
  isBCD (s.ds 1) ∧ s.ds 1 ≤ 0x59 ∧
  isBCD (s.ds 2) ∧ s.ds 2 ≤ 0x23 ∧
  1 ≤ s.ds 3 ∧ s.ds 3 ≤ 7 ∧
  isBCD (s.ds 5) ∧ 1 ≤ s.ds 5 ∧ s.ds 5 ≤ 0x12 ∧
  isBCD (s.ds 4) ∧ 1 ≤ s.ds 4 ∧ s.ds 4 ≤ monthDays (s.ds 5) s.isLeap ∧
  isBCD (s.ds 6) ∧ isBCD (s.ds 7) ∧
  s.isLeap = check_leap_year (s.ds 6)

instance (s : RTCState) : Decidable (ValidTime s) := by
  unfold ValidTime; infer_instance

/-! ## Alarm evaluation (`_check_alarms`, lines 288-351) -/

/-- The weekday mask bit chosen by the switch on offset 3 (MON = BIT0 through
SUN = BIT6 from config.h); any other day byte leaves the initial 0. -/
def dayMaskBit (d3 : Nat) : Nat :=
  if d3 = 0x01 then 1
  else if d3 = 0x02 then 2
  else if d3 = 0x03 then 4
  else if d3 = 0x04 then 8
  else if d3 = 0x05 then 16
  else if d3 = 0x06 then 32
  else if d3 = 0x07 then 64
  else 0

/-- The match condition of one alarm block: live minute equals the stored
minute at `im`, live hour plus 0x80 equals the stored hour at `ih` (integer
arithmetic in the C comparison), and the day mask at `idm` either has its
match-any top bit or the current weekday bit. -/
def alarm_cond (ds : RegFile) (dmb im ih idm : Nat) : Prop :=
  ds 1 = ds im ∧ ds 2 + 0x80 = ds ih ∧
    (ds idm &&& 0x80 ≠ 0 ∨ ds idm &&& dmb ≠ 0)

instance (ds : RegFile) (dmb im ih idm : Nat) :
    Decidable (alarm_cond ds dmb im ih idm) := by
  unfold alarm_cond; infer_instance

/-- One alarm block: on a match, OR the alarm flag bit into offset 30. -/
def alarm_step (dmb im ih idm bit : Nat) (ds : RegFile) : RegFile :=
  if alarm_cond ds dmb im ih idm then upd ds 30 (ds 30 ||| bit) else ds

/-- `_check_alarms`: the six alarm blocks run in order, each reading the live
time and its own three alarm bytes and possibly setting its flag bit. -/
def check_alarms (ds : RegFile) : RegFile :=
  let dmb := dayMaskBit (ds 3)
  alarm_step dmb 23 24 25 32
    (alarm_step dmb 20 21 22 16
      (alarm_step dmb 17 18 19 8
        (alarm_step dmb 14 15 16 4
          (alarm_step dmb 11 12 13 2
            (alarm_step dmb 8 9 10 1 ds)))))

/-! ## Bus receive path (`USI_I2C_slave_RX_callback`, lines 442-480)

The callback state is the transaction byte counter `_USI_I2C_slave_n_byte`
(reset to 0 by the bus start condition), the register cursor
`_I2C_data_offset` and the data store.  The C store
`*(_DATA_STORE + _I2C_data_offset) = byte_data` is an array store that is
in bounds only for offsets below 31; the embedding makes that bound explicit
and returns an error value (`none`) on the out-of-range store. -/

structure RxState where
  nByte : Nat
  offset : Nat
  ds : RegFile

/-- One step of the offset-30 masking (the per-bit `if` statements of
case 30): a flag bit requested 1 by the host while currently 0 is cleared.
The C `byte_data &= ~BITn` on an unsigned char is `&&& (0xFF ^^^ bit)`. -/
def clear_bit_if (old b bit : Nat) : Nat :=
  if old &&& bit = 0 ∧ b &&& bit ≠ 0 then b &&& (0xFF ^^^ bit) else b

/-- The full offset-30 write mask: the six alarm flag bits in order. -/
def rx_mask30 (old b : Nat) : Nat :=
  clear_bit_if old (clear_bit_if old (clear_bit_if old (clear_bit_if old
    (clear_bit_if old (clear_bit_if old b 1) 2) 4) 8) 16) 32

/-- `USI_I2C_slave_RX_callback` on one received byte.  The first byte of a
transaction (byte counter 0) sets the cursor; later bytes are stored at the
cursor (offsets 26 and 27 discard, offset 30 is masked) and the cursor is
incremented.  `none` models the out-of-bounds array store. -/
def rx_callback (s : RxState) (b : Nat) : Option RxState :=
  if s.nByte = 0 then
    some ⟨1, b, s.ds⟩
  else
    if s.offset ≠ 26 ∧ s.offset ≠ 27 then
      if s.offset = 30 then
        some ⟨s.nByte, inc8 s.offset, upd s.ds 30 (rx_mask30 (s.ds 30) b)⟩
      else
        if s.offset < 31 then
          some ⟨s.nByte, inc8 s.offset, upd s.ds s.offset b⟩
        else
          none
    else
      some ⟨s.nByte, inc8 s.offset, s.ds⟩

/-- Run the receive callback over a list of bytes, stopping at the first
error. -/
def rx_run (s : RxState) : List Nat → Option RxState
  | [] => some s
  | b :: rest =>
    match rx_callback s b with
    | none => none
    | some s2 => rx_run s2 rest

/-- A whole receiver-mode transaction: the start condition resets the byte
counter (`_USI_I2C_slave_reset_byte_count`), then the bytes arrive in order. -/
def rx_txn (ds : RegFile) (bytes : List Nat) : Option RxState :=
  rx_run ⟨0, 0, ds⟩ bytes

/-! ## Tick scheduler (`Timer_A0`, lines 490-522) -/

/-- The state touched by the timer interrupt: the 16 Hz ticker
`_second_tick` (an unsigned int), `_RTC_action_bits`, and the P1 output
register (bit 0 is the 1 Hz square-wave line). -/
structure TimerState where
  tick : Nat
  ab : Nat
  p1 : Nat

/-- The switch body of `Timer_A0`, as a function of the already incremented
ticker value `t`. -/
def tick_switch (t : Nat) (s : TimerState) : TimerState :=
  if t = 2 then ⟨t, s.ab ||| 16, s.p1⟩
  else if t = 4 then ⟨t, s.ab, s.p1⟩
  else if t = 6 then ⟨t, s.ab ||| 32, s.p1⟩
  else if t = 8 then ⟨t, s.ab, s.p1 ^^^ 1⟩
  else if t = 10 then ⟨t, s.ab, s.p1⟩
  else if t = 12 then ⟨t, s.ab ||| 1, s.p1⟩
  else if t = 14 then ⟨t, s.ab, s.p1⟩
  else if t = 16 then ⟨0, s.ab, s.p1 ^^^ 1⟩
  else ⟨t, s.ab, s.p1⟩

/-- `Timer_A0`: increment the ticker (an unsigned int, so mod 65536) and
switch on the new count. -/
def timer_A0 (s : TimerState) : TimerState :=
  tick_switch ((s.tick + 1) % 65536) s

/-- The rollover condition of claim C3, written from the words of the spec:
date 0x29 rolls only in a February with the cached leap flag clear, 0x30 only
in February, 0x31 only in the four 30-day months, 0x32 only in the seven
31-day months. -/
def spec_dateRollCond (d4 d5 leap : Nat) : Prop :=
  (d4 = 0x29 ∧ d5 = 0x02 ∧ leap = 0) ∨
  (d4 = 0x30 ∧ d5 = 0x02) ∨
  (d4 = 0x31 ∧ (d5 = 0x04 ∨ d5 = 0x06 ∨ d5 = 0x09 ∨ d5 = 0x11)) ∨
  (d4 = 0x32 ∧ (d5 = 0x01 ∨ d5 = 0x03 ∨ d5 = 0x05 ∨ d5 = 0x07 ∨ d5 = 0x08 ∨
    d5 = 0x10 ∨ d5 = 0x12))

/-! ## Theorems -/

@[simp] lemma upd_same (ds : RegFile) (i v : Nat) : upd ds i v i = v := by
  simp [upd]

lemma upd_ne (ds : RegFile) (i v j : Nat) (h : j ≠ i) : upd ds i v j = ds j := by
  simp [upd, h]

lemma upd_self (ds : RegFile) (i : Nat) : upd ds i (ds i) = ds := by
  funext j; by_cases h : j = i <;> simp [upd, h]


lemma testBit_pow_lit (k : Nat) : Nat.testBit 16 k = decide (k = 4) := by
  rw [show (16 : Nat) = 2 ^ 4 from rfl, Nat.testBit_two_pow]
  exact decide_eq_decide.mpr ⟨Eq.symm, Eq.symm⟩

lemma testBit_pow_lit32 (k : Nat) : Nat.testBit 32 k = decide (k = 5) := by
  rw [show (32 : Nat) = 2 ^ 5 from rfl, Nat.testBit_two_pow]
  exact decide_eq_decide.mpr ⟨Eq.symm, Eq.symm⟩

lemma testBit_pow_lit1 (k : Nat) : Nat.testBit 1 k = decide (k = 0) := by
  rw [show (1 : Nat) = 2 ^ 0 from rfl, Nat.testBit_two_pow]
  exact decide_eq_decide.mpr ⟨Eq.symm, Eq.symm⟩

set_option maxRecDepth 4000 in
/-- Claim C2: the leap-year check reads only the year byte at offset 6 and
ignores the century; on any year byte it reports leap exactly when the tens
digit is odd and the units digit is 2 or 6, or the tens digit is even and the
units digit is 4 or 8; in particular year 0x04 is leap and year 0x20 is not. -/
theorem C2_leap_year_rule :
    (∀ b, b < 256 →
      check_leap_year b =
        (if b / 16 % 2 = 1 then
          (if b % 16 = 2 ∨ b % 16 = 6 then 1 else 0)
         else
          (if b % 16 = 4 ∨ b % 16 = 8 then 1 else 0))) ∧
    (∀ ds ds2 : RegFile, ds 6 = ds2 6 →
      check_leap_year_st ds = check_leap_year_st ds2) ∧
    check_leap_year 0x04 = 1 ∧ check_leap_year 0x20 = 0 := by
  refine ⟨by decide, ?_, by decide, by decide⟩
  intro ds ds2 h
  simp [check_leap_year_st, h]

theorem C2_leap_year_rule_witness :
    check_leap_year 0x16 = 1 ∧
    check_leap_year_st (fun _ => 4) =
      check_leap_year_st (fun i => if i = 6 then 4 else 9) := by
  constructor
  · have h := C2_leap_year_rule.1 0x16 (by decide)
    simpa using h
  · exact C2_leap_year_rule.2.1 (fun _ => 4) (fun i => if i = 6 then 4 else 9) rfl

/-- Claim C3: the date switch of `_time_increment` sets the date to 0x01 and
increments the month exactly under the conditions of `spec_dateRollCond`;
for every other combination the month byte is left unchanged. -/
theorem C3_date_rollover (d4 d5 leap : Nat) (h5 : d5 < 256) :
    (date_check d4 d5 leap = (0x01, (d5 + 1) % 256) ↔
      spec_dateRollCond d4 d5 leap) ∧
    (¬ spec_dateRollCond d4 d5 leap → (date_check d4 d5 leap).2 = d5) := by
  unfold date_check spec_dateRollCond inc8 time_carry
  split_ifs <;> simp [Prod.ext_iff] <;> omega

theorem C3_date_rollover_witness :
    date_check 0x29 0x02 0 = (0x01, 0x03) ∧ (date_check 0x29 0x02 1).2 = 0x02 := by
  have h := C3_date_rollover 0x29 0x02 0 (by decide)
  have h2 := C3_date_rollover 0x29 0x02 1 (by decide)
  refine ⟨h.1.mpr (Or.inl ⟨rfl, rfl, rfl⟩), h2.2 ?_⟩
  unfold spec_dateRollCond
  omega

/-- Claim C9: every timer interrupt increments the 16 Hz ticker (an unsigned
int, wrapping at 65536) and acts only on the resulting count: count 2 raises
the interrupt-assertion flag BIT4, count 6 the interrupt-reset flag BIT5,
count 12 the time-advance flag BIT0, counts 8 and 16 toggle the square-wave
bit of P1, and count 16 also resets the ticker; at every other count no
action-bit is raised and the output is unchanged. -/
theorem C9_tick_scheduler (s : TimerState) :
    ((timer_A0 s).tick =
      if (s.tick + 1) % 65536 = 16 then 0 else (s.tick + 1) % 65536) ∧
    (∀ k, Nat.testBit (timer_A0 s).ab k =
      (Nat.testBit s.ab k
        || decide (k = 4 ∧ (s.tick + 1) % 65536 = 2)
        || decide (k = 5 ∧ (s.tick + 1) % 65536 = 6)
        || decide (k = 0 ∧ (s.tick + 1) % 65536 = 12))) ∧
    ((timer_A0 s).p1 =
      if (s.tick + 1) % 65536 = 8 ∨ (s.tick + 1) % 65536 = 16 then s.p1 ^^^ 1
      else s.p1) := by
  refine ⟨?_, fun k => ?_, ?_⟩ <;>
    unfold timer_A0 tick_switch <;>
    split_ifs <;>
    simp_all [Nat.testBit_or, testBit_pow_lit, testBit_pow_lit32,
      testBit_pow_lit1]

/-! ### Bit lemmas for the offset-30 flag mask -/

lemma and_pow_zero (n j : Nat) : n &&& 2 ^ j = 0 ↔ n.testBit j = false := by
  rw [Nat.and_two_pow]
  cases h : n.testBit j <;> simp [h]

lemma mask_testBit (j k : Nat) (hk : k < 8) :
    Nat.testBit (0xFF ^^^ 2 ^ j) k = !(decide (j = k)) := by
  rw [Nat.testBit_xor, Nat.testBit_two_pow]
  have h255 : Nat.testBit 255 k = true := by interval_cases k <;> decide
  simp [h255]

lemma clear_bit_step (old b bit j k : Nat) (hbit : bit = 2 ^ j) (hk : k < 8) :
    Nat.testBit (clear_bit_if old b bit) k =
      (Nat.testBit b k && (decide (k ≠ j) || Nat.testBit old k)) := by
  subst hbit
  unfold clear_bit_if
  split_ifs with h
  · rw [Nat.testBit_and, mask_testBit j k hk]
    rcases h with ⟨h1, _⟩
    rw [and_pow_zero] at h1
    by_cases hkj : k = j
    · subst hkj; simp [h1]
    · have hjk : j ≠ k := fun hh => hkj hh.symm
      simp [hkj, hjk]
  · by_cases hkj : k = j
    · subst hkj
      cases ho : Nat.testBit old k
      · have h1 : old &&& 2 ^ k = 0 := (and_pow_zero old k).mpr ho
        have h2 : b &&& 2 ^ k = 0 := by tauto
        have hb := (and_pow_zero b k).mp h2
        simp [hb, ho]
      · simp [ho]
    · simp [hkj]

/-- On the six alarm-flag bits, the stored value of the offset-30 write mask
is the AND of the incoming byte with the current flags: a bit survives only
if the host sent it 1 and it was already 1. -/
lemma rx_mask30_testBit (old b k : Nat) (hk : k < 6) :
    Nat.testBit (rx_mask30 old b) k = (Nat.testBit b k && Nat.testBit old k) := by
  have hk8 : k < 8 := by omega
  unfold rx_mask30
  rw [clear_bit_step old _ 32 5 k rfl hk8, clear_bit_step old _ 16 4 k rfl hk8,
    clear_bit_step old _ 8 3 k rfl hk8, clear_bit_step old _ 4 2 k rfl hk8,
    clear_bit_step old _ 2 1 k rfl hk8, clear_bit_step old _ 1 0 k rfl hk8]
  interval_cases k <;> cases ho : Nat.testBit old _ <;> simp [ho]

/-- Counterexample to claim C1 as stated: with every flag bit currently 0, a
host write of 0x40 to offset 30 is stored as 0x40 — bit 6 of the stored byte
is 1 although bit 6 of the flag register was 0 before the write.  Only the
six alarm-flag bits 0 through 5 are protected by the mask. -/
theorem C1_flag_write_monotonic_cex :
    ((rx_callback ⟨1, 30, fun _ => 0⟩ 0x40).map fun s => Nat.testBit (s.ds 30) 6)
      = some true ∧
    Nat.testBit ((fun _ => (0 : Nat)) 30) 6 = false := by
  exact ⟨rfl, rfl⟩

/-- Claim C1 (amended): for every current flag register value and every byte
the host writes to offset 30 through the receive callback, the stored byte
never has any of the six ALARM-FLAG bits (bits 0 through 5) set to 1 that
were 0 before the write; bits 6 and 7 of the byte are not masked. -/
theorem C1_flag_write_monotonic (s : RxState) (b : Nat) (s2 : RxState)
    (hn : s.nByte ≠ 0) (hoff : s.offset = 30)
    (hcb : rx_callback s b = some s2) (k : Nat) (hk : k < 6)
    (hset : Nat.testBit (s2.ds 30) k = true) :
    Nat.testBit (s.ds 30) k = true := by
  unfold rx_callback at hcb
  rw [hoff] at hcb
  rw [if_neg hn, if_pos (by omega : (30 : Nat) ≠ 26 ∧ (30 : Nat) ≠ 27),
    if_pos rfl] at hcb
  have h2 : s2.ds 30 = rx_mask30 (s.ds 30) b := by
    rw [← Option.some.inj hcb]
    simp [upd]
  rw [h2, rx_mask30_testBit _ _ _ hk] at hset
  simp only [Bool.and_eq_true] at hset
  exact hset.2

theorem C1_flag_write_monotonic_witness :
    Nat.testBit (((⟨1, 30, fun _ => 3⟩ : RxState).ds) 30) 1 = true :=
  C1_flag_write_monotonic ⟨1, 30, fun _ => 3⟩ 2 ⟨1, 31, upd (fun _ => 3) 30 2⟩
    (by decide) rfl rfl 1 (by decide) (by decide)

/-- Counterexample to claim C8 as stated: a data byte addressed to offset 30
is not always stored as received: with all flags 0 the received byte 0x01 is
stored as 0x00 (the flag mask clears it), so "every subsequent received byte
is stored at the cursor" fails at offset 30. -/
theorem C8_rx_byte_semantics_cex :
    ((rx_callback ⟨1, 30, fun _ => 0⟩ 0x01).map fun s => s.ds 30) = some 0x00 ∧
    (0x00 : Nat) ≠ 0x01 := by
  exact ⟨rfl, by omega⟩

/-- Claim C8 (amended): in receiver mode the first byte after a start
condition (byte count 0) sets the cursor and is not stored; every later byte
increments the cursor by one and is stored at the cursor, except that
offsets 26 and 27 discard the byte (cursor still increments) and offset 30
stores the byte after the flag mask `rx_mask30` is applied. -/
theorem C8_rx_byte_semantics (s : RxState) (b : Nat) :
    (s.nByte = 0 → rx_callback s b = some ⟨1, b, s.ds⟩) ∧
    (s.nByte ≠ 0 → s.offset = 26 ∨ s.offset = 27 →
      rx_callback s b = some ⟨s.nByte, inc8 s.offset, s.ds⟩) ∧
    (s.nByte ≠ 0 → s.offset = 30 →
      rx_callback s b =
        some ⟨s.nByte, inc8 s.offset, upd s.ds 30 (rx_mask30 (s.ds 30) b)⟩) ∧
    (s.nByte ≠ 0 → s.offset < 31 → s.offset ≠ 26 → s.offset ≠ 27 →
      s.offset ≠ 30 →
      rx_callback s b = some ⟨s.nByte, inc8 s.offset, upd s.ds s.offset b⟩) := by
  refine ⟨fun h1 => ?_, fun h1 h2 => ?_, fun h1 h2 => ?_,
    fun h1 h2 h3 h4 h5 => ?_⟩ <;>
    unfold rx_callback
  · simp [h1]
  · rcases h2 with h2 | h2 <;> simp [h1, h2]
  · simp [h1, h2]
  · simp [h1, h2, h3, h4, h5]

theorem C8_rx_byte_semantics_witness :
    rx_callback ⟨1, 5, fun _ => 0⟩ 9 = some ⟨1, 6, upd (fun _ => 0) 5 9⟩ :=
  (C8_rx_byte_semantics ⟨1, 5, fun _ => 0⟩ 9).2.2.2 (by decide) (by decide)
    (by decide) (by decide) (by decide)

/-- After the offset byte, a run of data bytes that stays below offset 31
never reaches the out-of-bounds store. -/
lemma rx_run_isSome (data : List Nat) :
    ∀ s : RxState, s.nByte = 1 → s.offset + data.length ≤ 31 →
      (rx_run s data).isSome = true := by
  induction data with
  | nil => intro s _ _; rfl
  | cons b rest ih =>
    intro s h1 h2
    simp only [List.length_cons] at h2
    have hlt : s.offset < 31 := by omega
    have hstep : ∃ s2 : RxState,
        rx_callback s b = some s2 ∧ s2.nByte = 1 ∧ s2.offset = s.offset + 1 := by
      by_cases hA : s.offset ≠ 26 ∧ s.offset ≠ 27
      · by_cases h30 : s.offset = 30
        · refine ⟨⟨s.nByte, inc8 s.offset, upd s.ds 30 (rx_mask30 (s.ds 30) b)⟩,
            ?_, h1, ?_⟩
          · unfold rx_callback
            rw [if_neg (by omega), if_pos hA, if_pos h30]
          · show inc8 s.offset = s.offset + 1
            unfold inc8; omega
        · refine ⟨⟨s.nByte, inc8 s.offset, upd s.ds s.offset b⟩, ?_, h1, ?_⟩
          · unfold rx_callback
            rw [if_neg (by omega), if_pos hA, if_neg h30, if_pos hlt]
          · show inc8 s.offset = s.offset + 1
            unfold inc8; omega
      · refine ⟨⟨s.nByte, inc8 s.offset, s.ds⟩, ?_, h1, ?_⟩
        · unfold rx_callback
          rw [if_neg (by omega), if_neg hA]
        · show inc8 s.offset = s.offset + 1
          unfold inc8; omega
    obtain ⟨s2, hs2, hn2, ho2⟩ := hstep
    unfold rx_run
    rw [hs2]
    exact ih s2 hn2 (by omega)

/-- Claim C10: the receive callback does no bounds check of its own; in this
total embedding the out-of-bounds store is the `none` result.  A transaction
whose offset byte is 31 followed by one data byte reaches it; any transaction
whose offset byte plus data-byte count stays at most 31 never does. -/
theorem C10_rx_store_bounds :
    rx_txn (fun _ => 0) [31, 0] = none ∧
    (∀ (ds : RegFile) (off : Nat) (data : List Nat),
      off + data.length ≤ 31 → (rx_txn ds (off :: data)).isSome = true) := by
  constructor
  · rfl
  · intro ds off data h
    unfold rx_txn rx_run
    rw [show rx_callback ⟨0, 0, ds⟩ off = some ⟨1, off, ds⟩ from rfl]
    exact rx_run_isSome data ⟨1, off, ds⟩ rfl h

theorem C10_rx_store_bounds_witness :
    (rx_txn (fun _ => 0) [5, 77]).isSome = true :=
  C10_rx_store_bounds.2 (fun _ => 0) 5 [77] (by simp)

/-! ### Alarm evaluation lemmas -/

lemma alarm_step_ds_ne30 (dmb im ih idm bit : Nat) (ds : RegFile) (j : Nat)
    (hj : j ≠ 30) : alarm_step dmb im ih idm bit ds j = ds j := by
  unfold alarm_step
  split_ifs <;> simp [upd, hj]

lemma alarm_step_ds30 (dmb im ih idm bit : Nat) (ds : RegFile) :
    alarm_step dmb im ih idm bit ds 30 =
      if alarm_cond ds dmb im ih idm then ds 30 ||| bit else ds 30 := by
  unfold alarm_step
  split_ifs <;> simp [upd]

lemma testBit_cond_or (x j k : Nat) (c : Prop) [Decidable c] :
    Nat.testBit (if c then x ||| 2 ^ j else x) k =
      (Nat.testBit x k || (decide c && decide (k = j))) := by
  split_ifs with hc
  · rw [Nat.testBit_or, Nat.testBit_two_pow]
    by_cases hkj : k = j
    · subst hkj; simp [hc]
    · have hjk : ¬(j = k) := fun h => hkj h.symm
      simp [hc, hkj, hjk]
  · simp [hc]

lemma testBit_cond_or1 (x k : Nat) (c : Prop) [Decidable c] :
    Nat.testBit (if c then x ||| 1 else x) k =
      (Nat.testBit x k || (decide c && decide (k = 0))) := by
  simpa using testBit_cond_or x 0 k c

lemma testBit_cond_or2 (x k : Nat) (c : Prop) [Decidable c] :
    Nat.testBit (if c then x ||| 2 else x) k =
      (Nat.testBit x k || (decide c && decide (k = 1))) := by
  simpa using testBit_cond_or x 1 k c

lemma testBit_cond_or4 (x k : Nat) (c : Prop) [Decidable c] :
    Nat.testBit (if c then x ||| 4 else x) k =
      (Nat.testBit x k || (decide c && decide (k = 2))) := by
  simpa using testBit_cond_or x 2 k c

lemma testBit_cond_or8 (x k : Nat) (c : Prop) [Decidable c] :
    Nat.testBit (if c then x ||| 8 else x) k =
      (Nat.testBit x k || (decide c && decide (k = 3))) := by
  simpa using testBit_cond_or x 3 k c

lemma testBit_cond_or16 (x k : Nat) (c : Prop) [Decidable c] :
    Nat.testBit (if c then x ||| 16 else x) k =
      (Nat.testBit x k || (decide c && decide (k = 4))) := by
  simpa using testBit_cond_or x 4 k c

lemma testBit_cond_or32 (x k : Nat) (c : Prop) [Decidable c] :
    Nat.testBit (if c then x ||| 32 else x) k =
      (Nat.testBit x k || (decide c && decide (k = 5))) := by
  simpa using testBit_cond_or x 5 k c

/-- Bit `k` of the flag register after one alarm evaluation: the old bit,
ORed with the match condition of alarm `k` read on the incoming register
file. -/
lemma check_alarms_30_testBit (ds : RegFile) (k : Nat) (hk : k < 6) :
    Nat.testBit (check_alarms ds 30) k =
      (Nat.testBit (ds 30) k ||
        decide (alarm_cond ds (dayMaskBit (ds 3))
          (8 + 3 * k) (9 + 3 * k) (10 + 3 * k))) := by
  interval_cases k <;>
    · unfold check_alarms
      simp only [alarm_step_ds30, alarm_step_ds_ne30, alarm_cond,
        testBit_cond_or1, testBit_cond_or2, testBit_cond_or4,
        testBit_cond_or8, testBit_cond_or16, testBit_cond_or32]
      norm_num
      try simp [alarm_step_ds_ne30, Bool.or_assoc, Bool.or_comm,
        Bool.or_left_comm]

/-- Claim C7: evaluation sets the flag bit of alarm `i` exactly when the
stored minute matches, the live hour plus 0x80 equals the stored hour byte,
and the day condition holds; in particular, when the live hour is a valid
BCD hour (at most 0x23) and the stored hour byte (a byte value) has its
high match-enable bit clear, evaluation leaves that flag bit unchanged. -/
theorem C7_alarm_hour_match (ds : RegFile) (i : Nat) (hi : i < 6)
    (hhr : ds 2 ≤ 0x23) (hby : ds (9 + 3 * i) < 256) :
    (Nat.testBit (check_alarms ds 30) i =
      (Nat.testBit (ds 30) i ||
        decide (alarm_cond ds (dayMaskBit (ds 3))
          (8 + 3 * i) (9 + 3 * i) (10 + 3 * i)))) ∧
    (Nat.testBit (ds (9 + 3 * i)) 7 = false →
      Nat.testBit (check_alarms ds 30) i = Nat.testBit (ds 30) i) := by
  refine ⟨check_alarms_30_testBit ds i hi, fun h7 => ?_⟩
  rw [check_alarms_30_testBit ds i hi]
  have hlt : ds (9 + 3 * i) < 128 := by
    rw [Nat.testBit_to_div_mod] at h7
    simp at h7
    omega
  have hcond : ¬ alarm_cond ds (dayMaskBit (ds 3))
      (8 + 3 * i) (9 + 3 * i) (10 + 3 * i) := by
    rintro ⟨-, h2, -⟩
    omega
  simp [hcond]

theorem C7_alarm_hour_match_witness :
    Nat.testBit
      (check_alarms (fun j => if j = 9 then 0x15 else 0) 30) 0 =
    Nat.testBit ((fun j => if j = 9 then (0x15 : Nat) else 0) 30) 0 :=
  (C7_alarm_hour_match (fun j => if j = 9 then 0x15 else 0) 0 (by decide)
    (by decide) (by decide)).2 (by decide)

/-! ### Frame lemmas: which offsets each block of `_time_increment` can touch -/

lemma stage_sec_ds_frame (s : RTCState) (j : Nat) (h0 : j ≠ 0) (h1 : j ≠ 1) :
    (stage_sec s).ds j = s.ds j := by
  simp only [stage_sec]
  split_ifs <;> simp [upd, h0, h1]

lemma stage_min_ds_frame (s : RTCState) (j : Nat) (h1 : j ≠ 1) (h2 : j ≠ 2) :
    (stage_min s).ds j = s.ds j := by
  unfold stage_min
  split_ifs <;> simp [upd, h1, h2]

lemma stage_hour_ds_frame (s : RTCState) (j : Nat) (h2 : j ≠ 2) (h3 : j ≠ 3)
    (h4 : j ≠ 4) : (stage_hour s).ds j = s.ds j := by
  unfold stage_hour
  split_ifs <;> simp [upd, h2, h3, h4]

lemma stage_day_ds_frame (s : RTCState) (j : Nat) (h3 : j ≠ 3) :
    (stage_day s).ds j = s.ds j := by
  unfold stage_day
  split_ifs <;> simp [upd, h3]

lemma stage_date_ds_frame (s : RTCState) (j : Nat) (h4 : j ≠ 4) (h5 : j ≠ 5) :
    (stage_date s).ds j = s.ds j := by
  unfold stage_date
  simp [upd, h4, h5]

lemma stage_month_ds_frame (s : RTCState) (j : Nat) (h5 : j ≠ 5) (h6 : j ≠ 6) :
    (stage_month s).ds j = s.ds j := by
  unfold stage_month
  split_ifs <;> simp [upd, h5, h6]

lemma stage_year_ds_frame (s : RTCState) (j : Nat) (h6 : j ≠ 6) (h7 : j ≠ 7) :
    (stage_year s).ds j = s.ds j := by
  unfold stage_year
  split_ifs <;> simp [upd, h6, h7]

lemma stage_leap_ds (s : RTCState) : (stage_leap s).ds = s.ds := by
  unfold stage_leap
  split_ifs <;> rfl

lemma stage_century_ds_frame (s : RTCState) (j : Nat) (h7 : j ≠ 7) :
    (stage_century s).ds j = s.ds j := by
  unfold stage_century
  split_ifs <;> simp [upd, h7]

lemma stage_min_ab (s : RTCState) : (stage_min s).actionBits = s.actionBits := by
  unfold stage_min; split_ifs <;> rfl

lemma stage_hour_ab (s : RTCState) : (stage_hour s).actionBits = s.actionBits := by
  unfold stage_hour; split_ifs <;> rfl

lemma stage_day_ab (s : RTCState) : (stage_day s).actionBits = s.actionBits := by
  unfold stage_day; split_ifs <;> rfl

lemma stage_date_ab (s : RTCState) : (stage_date s).actionBits = s.actionBits :=
  rfl

lemma stage_year_ab (s : RTCState) : (stage_year s).actionBits = s.actionBits := by
  unfold stage_year; split_ifs <;> rfl

lemma stage_century_ab (s : RTCState) :
    (stage_century s).actionBits = s.actionBits := by
  unfold stage_century; split_ifs <;> rfl

lemma stage_month_ab_testBit3 (s : RTCState) :
    Nat.testBit (stage_month s).actionBits 3 = Nat.testBit s.actionBits 3 := by
  unfold stage_month
  split_ifs <;>
    simp [Nat.testBit_or, show Nat.testBit 4 3 = false from rfl]

lemma stage_leap_ab_testBit3 (s : RTCState) :
    Nat.testBit (stage_leap s).actionBits 3 = Nat.testBit s.actionBits 3 := by
  unfold stage_leap
  split_ifs <;>
    simp [Nat.testBit_and, show Nat.testBit 0xFB 3 = true from rfl]

/-! ### Identity lemmas: on a valid field value a block is a no-op -/

lemma time_carry_bcd (b : Nat) (h : b % 16 ≤ 9) : time_carry b = b := by
  unfold time_carry
  rw [if_neg]
  omega

lemma stage_min_id (s : RTCState) (hb : isBCD (s.ds 1)) (h : s.ds 1 ≤ 0x59) :
    stage_min s = s := by
  have hne : ¬ s.ds 1 = 0x5A := by omega
  unfold stage_min
  rw [if_neg hne, time_carry_bcd _ hb.1, upd_self]

lemma stage_hour_id (s : RTCState) (hb : isBCD (s.ds 2)) (h : s.ds 2 ≤ 0x23) :
    stage_hour s = s := by
  have hne : ¬ s.ds 2 = 0x24 := by omega
  unfold stage_hour
  rw [if_neg hne, time_carry_bcd _ hb.1, upd_self]

lemma stage_day_id (s : RTCState) (h : s.ds 3 ≤ 7) : stage_day s = s := by
  have hne : ¬ s.ds 3 = 0x08 := by omega
  unfold stage_day
  rw [if_neg hne]

lemma date_check_id (d4 d5 leap : Nat) (hb : d4 % 16 ≤ 9)
    (hle : d4 ≤ monthDays d5 leap) : date_check d4 d5 leap = (d4, d5) := by
  unfold monthDays at hle
  unfold date_check
  have hc : time_carry d4 = d4 := time_carry_bcd d4 hb
  split_ifs at hle ⊢ <;> first | rfl | rw [hc] | omega

lemma stage_date_id (s : RTCState) (hb : s.ds 4 % 16 ≤ 9)
    (hle : s.ds 4 ≤ monthDays (s.ds 5) s.isLeap) : stage_date s = s := by
  unfold stage_date
  rw [date_check_id _ _ _ hb hle]
  show (⟨upd (upd s.ds 4 (s.ds 4)) 5 (s.ds 5), s.actionBits, s.isLeap⟩ :
    RTCState) = s
  rw [upd_self, upd_self]

lemma stage_month_id (s : RTCState) (hb : isBCD (s.ds 5)) (h : s.ds 5 ≤ 0x12) :
    stage_month s = s := by
  have hne : ¬ s.ds 5 = 0x13 := by omega
  unfold stage_month
  rw [if_neg hne, time_carry_bcd _ hb.1, upd_self]

lemma stage_year_id (s : RTCState) (hb : isBCD (s.ds 6)) : stage_year s = s := by
  obtain ⟨hl, hh⟩ := hb
  have hne : ¬ s.ds 6 = 0x9A := by omega
  unfold stage_year
  rw [if_neg hne, time_carry_bcd _ hl, upd_self]

lemma stage_century_id (s : RTCState) (hb : isBCD (s.ds 7)) :
    stage_century s = s := by
  obtain ⟨hl, hh⟩ := hb
  have hne : ¬ s.ds 7 = 0x9A := by omega
  unfold stage_century
  rw [if_neg hne, time_carry_bcd _ hl, upd_self]

/-- On valid inputs the blocks after the seconds block change no data-store
byte at all. -/
lemma stages_after_sec_ds (t : RTCState)
    (hb1 : isBCD (t.ds 1)) (h1 : t.ds 1 ≤ 0x59)
    (hb2 : isBCD (t.ds 2)) (h2 : t.ds 2 ≤ 0x23)
    (h3 : t.ds 3 ≤ 7)
    (hb4 : t.ds 4 % 16 ≤ 9) (h4le : t.ds 4 ≤ monthDays (t.ds 5) t.isLeap)
    (hb5 : isBCD (t.ds 5)) (h5 : t.ds 5 ≤ 0x12)
    (hb6 : isBCD (t.ds 6)) (hb7 : isBCD (t.ds 7)) :
    (stage_century (stage_leap (stage_year (stage_month (stage_date
      (stage_day (stage_hour (stage_min t)))))))).ds = t.ds := by
  rw [stage_min_id t hb1 h1, stage_hour_id t hb2 h2, stage_day_id t h3,
    stage_date_id t hb4 h4le, stage_month_id t hb5 h5, stage_year_id t hb6,
    stage_century_id (stage_leap t) (by rw [stage_leap_ds]; exact hb7),
    stage_leap_ds]

/-- The seconds block on a second value at most 0x58: no rollover, the
seconds byte becomes its BCD successor, nothing else changes. -/
lemma stage_sec_noroll (s : RTCState) (hb : isBCD (s.ds 0))
    (h58 : s.ds 0 ≤ 0x58) :
    stage_sec s = ⟨upd s.ds 0 (bcdSucc (s.ds 0)), s.actionBits, s.isLeap⟩ := by
  have hne : ¬ upd s.ds 0 (inc8 (s.ds 0)) 0 = 0x5A := by
    simp [upd, inc8]
    omega
  unfold stage_sec
  rw [if_neg hne]
  congr 1
  funext j
  by_cases hj : j = 0
  · subst hj
    simp only [upd_same]
    unfold time_carry inc8 bcdSucc
    rcases hb with ⟨hlo, hhi⟩
    split_ifs <;> omega
  · simp [upd, hj]

/-- Claim C6: on a valid calendar state whose seconds byte is between 0x00
and 0x58, `_time_increment` replaces the seconds byte with its BCD successor
and leaves offsets 1 through 30 unchanged. -/
theorem C6_seconds_only (s : RTCState) (hv : ValidTime s)
    (h58 : s.ds 0 ≤ 0x58) :
    (time_increment s).ds 0 = bcdSucc (s.ds 0) ∧
    (∀ i, 1 ≤ i → i ≤ 30 → (time_increment s).ds i = s.ds i) := by
  obtain ⟨hb0, h0, hb1, h1, hb2, h2, h3lo, h3hi, hb5, h5lo, h5hi, hb4, h4lo,
    h4le, hb6, hb7, hleap⟩ := hv
  unfold time_increment
  rw [stage_sec_noroll s hb0 h58]
  rw [stages_after_sec_ds ⟨upd s.ds 0 (bcdSucc (s.ds 0)), s.actionBits,
      s.isLeap⟩
    (by simp [upd]; exact hb1) (by simp [upd]; exact h1)
    (by simp [upd]; exact hb2) (by simp [upd]; exact h2)
    (by simp [upd]; exact h3hi)
    (by simp [upd]; exact hb4.1) (by simp [upd]; exact h4le)
    (by simp [upd]; exact hb5) (by simp [upd]; exact h5hi)
    (by simp [upd]; exact hb6) (by simp [upd]; exact hb7)]
  constructor
  · simp [upd]
  · intro i hi1 hi30
    exact upd_ne s.ds 0 (bcdSucc (s.ds 0)) i (by omega)

theorem C6_seconds_only_witness :
    ValidTime ⟨fun j => if j = 0 then 0x29 else if j = 3 then 6 else
      if j = 4 then 1 else if j = 5 then 1 else if j = 7 then 0x20 else 0,
      0, 0⟩ ∧
    (time_increment ⟨fun j => if j = 0 then 0x29 else if j = 3 then 6 else
      if j = 4 then 1 else if j = 5 then 1 else if j = 7 then 0x20 else 0,
      0, 0⟩).ds 0 = 0x30 := by
  constructor
  · decide
  · exact (C6_seconds_only _ (by decide) (by decide)).1

/-! ### Second-rollover lemmas -/

lemma tail_after_min_frame (t : RTCState) (j : Nat) (h2 : j ≠ 2) (h3 : j ≠ 3)
    (h4 : j ≠ 4) (h5 : j ≠ 5) (h6 : j ≠ 6) (h7 : j ≠ 7) :
    (stage_century (stage_leap (stage_year (stage_month (stage_date
      (stage_day (stage_hour t))))))).ds j = t.ds j := by
  rw [stage_century_ds_frame _ _ h7, stage_leap_ds,
    stage_year_ds_frame _ _ h6 h7, stage_month_ds_frame _ _ h5 h6,
    stage_date_ds_frame _ _ h4 h5, stage_day_ds_frame _ _ h3,
    stage_hour_ds_frame _ _ h2 h3 h4]

lemma tail_after_sec_frame (t : RTCState) (j : Nat) (h1 : j ≠ 1) (h2 : j ≠ 2)
    (h3 : j ≠ 3) (h4 : j ≠ 4) (h5 : j ≠ 5) (h6 : j ≠ 6) (h7 : j ≠ 7) :
    (stage_century (stage_leap (stage_year (stage_month (stage_date
      (stage_day (stage_hour (stage_min t)))))))).ds j = t.ds j := by
  rw [tail_after_min_frame (stage_min t) j h2 h3 h4 h5 h6 h7,
    stage_min_ds_frame _ _ h1 h2]

lemma stage_sec_roll_facts (s : RTCState) (h59 : s.ds 0 = 0x59) :
    (stage_sec s).ds 0 = 0x00 ∧ (stage_sec s).ds 1 = inc8 (s.ds 1) ∧
    (stage_sec s).actionBits = s.actionBits ||| 8 ∧
    (∀ j, j ≠ 0 → j ≠ 1 → (stage_sec s).ds j = s.ds j) := by
  have hc : upd s.ds 0 (inc8 (s.ds 0)) 0 = 0x5A := by
    simp [upd, inc8, h59]
  simp only [stage_sec]
  rw [if_pos hc]
  refine ⟨by simp [upd], by simp [upd], rfl, fun j hj0 hj1 => by
    simp [upd, hj0, hj1]⟩

lemma stage_min_ds1 (t : RTCState) :
    (stage_min t).ds 1 = if t.ds 1 = 0x5A then 0x00 else time_carry (t.ds 1) := by
  unfold stage_min
  split_ifs <;> simp [upd]

lemma time_carry_succ (b : Nat) (hb : isBCD b) (h : b ≤ 0x58) :
    time_carry (b + 1) = bcdSucc b := by
  obtain ⟨hl, hh⟩ := hb
  unfold time_carry bcdSucc
  split_ifs <;> omega

lemma ab_testBit3_through_tail (t : RTCState) :
    Nat.testBit (stage_century (stage_leap (stage_year (stage_month
      (stage_date (stage_day (stage_hour (stage_min t)))))))).actionBits 3 =
    Nat.testBit t.actionBits 3 := by
  rw [stage_century_ab, stage_leap_ab_testBit3, stage_year_ab,
    stage_month_ab_testBit3, stage_date_ab, stage_day_ab, stage_hour_ab,
    stage_min_ab]

/-- Claim C5: on a valid calendar state whose seconds byte is 0x59, one call
of `_time_increment` zeroes the seconds, advances the minutes by one with
correct BCD carry (including the 0x59 to 0x00 rollover), raises the
alarm-check action flag BIT3, and leaves the alarm flag register (offset 30)
untouched, the alarm engine not being invoked. -/
theorem C5_second_rollover (s : RTCState) (hv : ValidTime s)
    (h59 : s.ds 0 = 0x59) :
    (time_increment s).ds 0 = 0x00 ∧
    (time_increment s).ds 1 =
      (if s.ds 1 = 0x59 then 0x00 else bcdSucc (s.ds 1)) ∧
    Nat.testBit (time_increment s).actionBits 3 = true ∧
    (time_increment s).ds 30 = s.ds 30 := by
  obtain ⟨hb0, h0, hb1, h1, hb2, h2, h3lo, h3hi, hb5, h5lo, h5hi, hb4, h4lo,
    h4le, hb6, hb7, hleap⟩ := hv
  obtain ⟨hs0, hs1, hsab, hsfr⟩ := stage_sec_roll_facts s h59
  have hinc : inc8 (s.ds 1) = s.ds 1 + 1 := by unfold inc8; omega
  refine ⟨?_, ?_, ?_, ?_⟩
  · show (stage_century _).ds 0 = 0x00
    rw [tail_after_sec_frame (stage_sec s) 0 (by omega) (by omega) (by omega)
      (by omega) (by omega) (by omega) (by omega)]
    exact hs0
  · show (stage_century _).ds 1 = _
    rw [tail_after_min_frame (stage_min (stage_sec s)) 1 (by omega) (by omega)
      (by omega) (by omega) (by omega) (by omega)]
    rw [stage_min_ds1 (stage_sec s), hs1, hinc]
    by_cases hm : s.ds 1 = 0x59
    · rw [if_pos (by omega), if_pos hm]
    · rw [if_neg (by omega), if_neg hm]
      exact time_carry_succ (s.ds 1) hb1 (by omega)
  · show Nat.testBit (stage_century _).actionBits 3 = true
    rw [ab_testBit3_through_tail (stage_sec s), hsab, Nat.testBit_or]
    simp [show Nat.testBit 8 3 = true from rfl]
  · show (stage_century _).ds 30 = s.ds 30
    rw [tail_after_sec_frame (stage_sec s) 30 (by omega) (by omega) (by omega)
      (by omega) (by omega) (by omega) (by omega)]
    exact hsfr 30 (by omega) (by omega)

theorem C5_second_rollover_witness :
    (time_increment ⟨fun j => if j = 0 then 0x59 else if j = 1 then 0x29 else
      if j = 3 then 6 else if j = 4 then 1 else if j = 5 then 1 else
      if j = 7 then 0x20 else 0, 0, 0⟩).ds 1 = 0x30 :=
  ((C5_second_rollover ⟨fun j => if j = 0 then 0x59 else if j = 1 then 0x29
      else if j = 3 then 6 else if j = 4 then 1 else if j = 5 then 1 else
      if j = 7 then 0x20 else 0, 0, 0⟩ (by decide) (by decide)).2).1

/-! ### BCD preservation of each block -/

lemma monthDays_le (m leap : Nat) : monthDays m leap ≤ 0x31 := by
  unfold monthDays
  split_ifs <;> omega

lemma stage_sec_spec (s : RTCState) (hb0 : isBCD (s.ds 0)) (h0 : s.ds 0 ≤ 0x59)
    (h1 : s.ds 1 ≤ 0x59) :
    (isBCD ((stage_sec s).ds 0) ∧ (stage_sec s).ds 0 ≤ 0x59) ∧
    ((stage_sec s).ds 1 = s.ds 1 ∨ (stage_sec s).ds 1 = s.ds 1 + 1) := by
  obtain ⟨hl, hh⟩ := hb0
  simp only [stage_sec]
  split_ifs with h
  · refine ⟨⟨?_, ?_⟩, Or.inr ?_⟩ <;> simp [upd, isBCD, inc8] <;> omega
  · simp [upd, inc8] at h
    refine ⟨⟨?_, ?_⟩, Or.inl ?_⟩ <;>
      simp [upd, isBCD, inc8, time_carry] <;> (try split_ifs) <;> omega

lemma stage_min_spec (t : RTCState) (m : Nat) (hbm : isBCD m) (hlm : m ≤ 0x59)
    (hm : t.ds 1 = m ∨ t.ds 1 = m + 1) (hh2 : t.ds 2 ≤ 0x23) :
    (isBCD ((stage_min t).ds 1) ∧ (stage_min t).ds 1 ≤ 0x59) ∧
    ((stage_min t).ds 2 = t.ds 2 ∨ (stage_min t).ds 2 = t.ds 2 + 1) := by
  obtain ⟨hl, hh⟩ := hbm
  unfold stage_min
  split_ifs with h
  · refine ⟨⟨?_, ?_⟩, Or.inr ?_⟩ <;> simp [upd, isBCD, inc8] <;> omega
  · refine ⟨⟨?_, ?_⟩, Or.inl ?_⟩ <;>
      simp [upd, isBCD, time_carry] <;> (try split_ifs) <;> omega

lemma stage_hour_spec (t : RTCState) (m : Nat) (hbm : isBCD m)
    (hlm : m ≤ 0x23) (hm : t.ds 2 = m ∨ t.ds 2 = m + 1) (hday : t.ds 3 ≤ 7)
    (hdate : isBCD (t.ds 4)) :
    (isBCD ((stage_hour t).ds 2) ∧ (stage_hour t).ds 2 ≤ 0x23) ∧
    ((stage_hour t).ds 3 = t.ds 3 ∨ (stage_hour t).ds 3 = t.ds 3 + 1) ∧
    ((stage_hour t).ds 4 = t.ds 4 ∨ (stage_hour t).ds 4 = t.ds 4 + 1) := by
  obtain ⟨hl, hh⟩ := hbm
  obtain ⟨hdl, hdh⟩ := hdate
  unfold stage_hour
  split_ifs with h
  · refine ⟨⟨?_, ?_⟩, Or.inr ?_, Or.inr ?_⟩ <;>
      simp [upd, isBCD, inc8] <;> omega
  · refine ⟨⟨?_, ?_⟩, Or.inl ?_, Or.inl ?_⟩ <;>
      simp [upd, isBCD, time_carry] <;> (try split_ifs) <;> omega

lemma stage_day_spec (t : RTCState) (h : t.ds 3 ≤ 8) :
    (stage_day t).ds 3 ≤ 7 := by
  unfold stage_day
  split_ifs with hr
  · simp [upd]
  · omega

lemma stage_date_spec (t : RTCState)
    (hd : (isBCD (t.ds 4) ∧ t.ds 4 ≤ 0x31) ∨
      (1 ≤ t.ds 4 ∧ isBCD (t.ds 4 - 1) ∧ t.ds 4 - 1 ≤ 0x31))
    (hm5 : isBCD (t.ds 5)) (h5 : t.ds 5 ≤ 0x12) :
    isBCD ((stage_date t).ds 4) ∧
    ((stage_date t).ds 5 = t.ds 5 ∨ (stage_date t).ds 5 = t.ds 5 + 1) := by
  obtain ⟨h5l, h5h⟩ := hm5
  simp only [isBCD] at hd
  unfold stage_date date_check
  constructor
  · split_ifs <;> simp [upd, isBCD, inc8, time_carry] <;> (try split_ifs) <;>
      omega
  · split_ifs <;> simp [upd, inc8] <;> omega

lemma stage_month_spec (t : RTCState)
    (hm : (isBCD (t.ds 5) ∧ t.ds 5 ≤ 0x12) ∨
      (1 ≤ t.ds 5 ∧ isBCD (t.ds 5 - 1) ∧ t.ds 5 - 1 ≤ 0x12))
    (hy : isBCD (t.ds 6)) :
    isBCD ((stage_month t).ds 5) ∧
    ((stage_month t).ds 6 = t.ds 6 ∨ (stage_month t).ds 6 = t.ds 6 + 1) := by
  obtain ⟨hyl, hyh⟩ := hy
  simp only [isBCD] at hm
  unfold stage_month
  split_ifs with h
  · refine ⟨?_, Or.inr ?_⟩ <;> simp [upd, isBCD, inc8] <;> omega
  · refine ⟨?_, Or.inl ?_⟩ <;>
      simp [upd, isBCD, time_carry] <;> (try split_ifs) <;> omega

lemma stage_year_spec (t : RTCState)
    (hy : isBCD (t.ds 6) ∨ (1 ≤ t.ds 6 ∧ isBCD (t.ds 6 - 1)))
    (hc : isBCD (t.ds 7)) :
    isBCD ((stage_year t).ds 6) ∧
    ((stage_year t).ds 7 = t.ds 7 ∨ (stage_year t).ds 7 = t.ds 7 + 1) := by
  obtain ⟨hcl, hch⟩ := hc
  simp only [isBCD] at hy
  unfold stage_year
  split_ifs with h
  · refine ⟨?_, Or.inr ?_⟩ <;> simp [upd, isBCD, inc8] <;> omega
  · refine ⟨?_, Or.inl ?_⟩ <;>
      simp [upd, isBCD, time_carry] <;> (try split_ifs) <;> omega

lemma stage_century_spec (t : RTCState)
    (hc : isBCD (t.ds 7) ∨ (1 ≤ t.ds 7 ∧ isBCD (t.ds 7 - 1))) :
    isBCD ((stage_century t).ds 7) := by
  simp only [isBCD] at hc
  unfold stage_century
  split_ifs with h
  · simp [upd, isBCD]
  · simp [upd, isBCD, time_carry]
    (try split_ifs) <;> omega

/-- Claim C4: one call of `_time_increment` on a valid calendar state leaves
each of the eight time/date bytes (offsets 0 through 7) holding two valid
BCD digits: no rollover check and no nibble carry produces a nibble above
9. -/
theorem C4_bcd_invariant (s : RTCState) (hv : ValidTime s) :
    ∀ i, i ≤ 7 → isBCD ((time_increment s).ds i) := by
  obtain ⟨hb0, h0, hb1, h1, hb2, h2, h3lo, h3hi, hb5, h5lo, h5hi, hb4, h4lo,
    h4le, hb6, hb7, hleap⟩ := hv
  have h4top : s.ds 4 ≤ 0x31 := le_trans h4le (monthDays_le _ _)
  unfold time_increment
  set s1 := stage_sec s with hs1
  set s2 := stage_min s1 with hs2
  set s3 := stage_hour s2 with hs3
  set s4 := stage_day s3 with hs4
  set s5 := stage_date s4 with hs5
  set s6 := stage_month s5 with hs6
  set s7 := stage_year s6 with hs7
  set s8 := stage_leap s7 with hs8
  set s9 := stage_century s8 with hs9
  have f1 : ∀ j, j ≠ 0 → j ≠ 1 → s1.ds j = s.ds j := fun j a b => by
    rw [hs1]; exact stage_sec_ds_frame s j a b
  have f2 : ∀ j, j ≠ 1 → j ≠ 2 → s2.ds j = s1.ds j := fun j a b => by
    rw [hs2]; exact stage_min_ds_frame s1 j a b
  have f3 : ∀ j, j ≠ 2 → j ≠ 3 → j ≠ 4 → s3.ds j = s2.ds j := fun j a b c => by
    rw [hs3]; exact stage_hour_ds_frame s2 j a b c
  have f4 : ∀ j, j ≠ 3 → s4.ds j = s3.ds j := fun j a => by
    rw [hs4]; exact stage_day_ds_frame s3 j a
  have f5 : ∀ j, j ≠ 4 → j ≠ 5 → s5.ds j = s4.ds j := fun j a b => by
    rw [hs5]; exact stage_date_ds_frame s4 j a b
  have f6 : ∀ j, j ≠ 5 → j ≠ 6 → s6.ds j = s5.ds j := fun j a b => by
    rw [hs6]; exact stage_month_ds_frame s5 j a b
  have f7 : ∀ j, j ≠ 6 → j ≠ 7 → s7.ds j = s6.ds j := fun j a b => by
    rw [hs7]; exact stage_year_ds_frame s6 j a b
  have f8 : ∀ j, s8.ds j = s7.ds j := fun j => by rw [hs8, stage_leap_ds]
  have f9 : ∀ j, j ≠ 7 → s9.ds j = s8.ds j := fun j a => by
    rw [hs9]; exact stage_century_ds_frame s8 j a
  have A := stage_sec_spec s hb0 h0 h1
  rw [← hs1] at A
  have B := stage_min_spec s1 (s.ds 1) hb1 h1 A.2
    (by rw [f1 2 (by omega) (by omega)]; exact h2)
  rw [← hs2] at B
  have C := stage_hour_spec s2 (s.ds 2) hb2 h2
    (by rw [← f1 2 (by omega) (by omega)]; exact B.2)
    (by rw [f2 3 (by omega) (by omega), f1 3 (by omega) (by omega)]; exact h3hi)
    (by rw [f2 4 (by omega) (by omega), f1 4 (by omega) (by omega)]; exact hb4)
  rw [← hs3] at C
  have hday3 : s3.ds 3 ≤ 7 ∨ s3.ds 3 = s.ds 3 + 1 := by
    rcases C.2.1 with h | h
    · left; rw [h, f2 3 (by omega) (by omega), f1 3 (by omega) (by omega)]
      exact h3hi
    · right; rw [h, f2 3 (by omega) (by omega), f1 3 (by omega) (by omega)]
  have D : s4.ds 3 ≤ 7 := by
    rw [hs4]
    exact stage_day_spec s3 (by rcases hday3 with h | h <;> omega)
  have hdate4 : s4.ds 4 = s.ds 4 ∨ s4.ds 4 = s.ds 4 + 1 := by
    have e : s3.ds 4 = s.ds 4 ∨ s3.ds 4 = s.ds 4 + 1 := by
      rcases C.2.2 with h | h
      · left; rw [h, f2 4 (by omega) (by omega), f1 4 (by omega) (by omega)]
      · right; rw [h, f2 4 (by omega) (by omega), f1 4 (by omega) (by omega)]
    rw [f4 4 (by omega)]
    exact e
  have hmon4 : s4.ds 5 = s.ds 5 := by
    rw [f4 5 (by omega), f3 5 (by omega) (by omega) (by omega),
      f2 5 (by omega) (by omega), f1 5 (by omega) (by omega)]
  have E := stage_date_spec s4
    (by
      rcases hdate4 with h | h
      · left; rw [h]; exact ⟨hb4, h4top⟩
      · right
        rw [h]
        exact ⟨by omega, by simpa using hb4, by omega⟩)
    (by rw [hmon4]; exact hb5) (by rw [hmon4]; exact h5hi)
  rw [← hs5] at E
  have hmon5 : s5.ds 5 = s.ds 5 ∨ s5.ds 5 = s.ds 5 + 1 := by
    rcases E.2 with h | h
    · left; rw [h, hmon4]
    · right; rw [h, hmon4]
  have hyr5 : s5.ds 6 = s.ds 6 := by
    rw [f5 6 (by omega) (by omega), f4 6 (by omega),
      f3 6 (by omega) (by omega) (by omega), f2 6 (by omega) (by omega),
      f1 6 (by omega) (by omega)]
  have F := stage_month_spec s5
    (by
      rcases hmon5 with h | h
      · left; rw [h]; exact ⟨hb5, h5hi⟩
      · right; rw [h]
        exact ⟨by omega, by simpa using hb5, by omega⟩)
    (by rw [hyr5]; exact hb6)
  rw [← hs6] at F
  have hyr6 : s6.ds 6 = s.ds 6 ∨ s6.ds 6 = s.ds 6 + 1 := by
    rcases F.2 with h | h
    · left; rw [h, hyr5]
    · right; rw [h, hyr5]
  have hcen6 : s6.ds 7 = s.ds 7 := by
    rw [f6 7 (by omega) (by omega), f5 7 (by omega) (by omega), f4 7 (by omega),
      f3 7 (by omega) (by omega) (by omega), f2 7 (by omega) (by omega),
      f1 7 (by omega) (by omega)]
  have G := stage_year_spec s6
    (by
      rcases hyr6 with h | h
      · left; rw [h]; exact hb6
      · right; rw [h]
        exact ⟨by omega, by simpa using hb6⟩)
    (by rw [hcen6]; exact hb7)
  rw [← hs7] at G
  have hcen7 : s7.ds 7 = s.ds 7 ∨ s7.ds 7 = s.ds 7 + 1 := by
    rcases G.2 with h | h
    · left; rw [h, hcen6]
    · right; rw [h, hcen6]
  have H : isBCD (s9.ds 7) := by
    rw [hs9]
    refine stage_century_spec s8 ?_
    rw [f8 7]
    rcases hcen7 with h | h
    · left; rw [h]; exact hb7
    · right; rw [h]
      exact ⟨by omega, by simpa using hb7⟩
  intro i hi
  interval_cases i
  · rw [f9 0 (by omega), f8 0, f7 0 (by omega) (by omega),
      f6 0 (by omega) (by omega), f5 0 (by omega) (by omega), f4 0 (by omega),
      f3 0 (by omega) (by omega) (by omega), f2 0 (by omega) (by omega)]
    exact A.1.1
  · rw [f9 1 (by omega), f8 1, f7 1 (by omega) (by omega),
      f6 1 (by omega) (by omega), f5 1 (by omega) (by omega), f4 1 (by omega),
      f3 1 (by omega) (by omega) (by omega)]
    exact B.1.1
  · rw [f9 2 (by omega), f8 2, f7 2 (by omega) (by omega),
      f6 2 (by omega) (by omega), f5 2 (by omega) (by omega), f4 2 (by omega)]
    exact C.1.1
  · rw [f9 3 (by omega), f8 3, f7 3 (by omega) (by omega),
      f6 3 (by omega) (by omega), f5 3 (by omega) (by omega)]
    exact ⟨by omega, by omega⟩
  · rw [f9 4 (by omega), f8 4, f7 4 (by omega) (by omega),
      f6 4 (by omega) (by omega)]
    exact E.1
  · rw [f9 5 (by omega), f8 5, f7 5 (by omega) (by omega)]
    exact F.1
  · rw [f9 6 (by omega), f8 6]
    exact G.1
  · exact H

theorem C4_bcd_invariant_witness :
    ValidTime ⟨fun j => if j = 0 then 0x59 else if j = 1 then 0x59 else
      if j = 2 then 0x23 else if j = 3 then 7 else if j = 4 then 0x28 else
      if j = 5 then 0x02 else if j = 6 then 0x99 else if j = 7 then 0x20 else
      0, 0, 0⟩ ∧
    isBCD ((time_increment ⟨fun j => if j = 0 then 0x59 else
      if j = 1 then 0x59 else if j = 2 then 0x23 else if j = 3 then 7 else
      if j = 4 then 0x28 else if j = 5 then 0x02 else if j = 6 then 0x99 else
      if j = 7 then 0x20 else 0, 0, 0⟩).ds 4) := by
  constructor
  · decide
  · exact C4_bcd_invariant _ (by decide) 4 (by decide)

end G2452RTC
